import Mathlib

/-!
Verification development for `src/ad_verifier_gemini.py`.

Python strings are modelled as `List Char`.  The outcome of the single
outbound HTTP fetch, the provider's model catalog and the generation
reply are explicit parameters of the request handler, so the handler is
a pure function.  HTML documents are modelled as trees of element and
text nodes; `BeautifulSoup.get_text` is the in-order concatenation of
the text nodes.
-/

/-! ## Python string primitives -/

/-- Backtick character, written by code point. -/
def btk : Char := Char.ofNat 96

/-- Double-quote character. -/
def qt : Char := Char.ofNat 34

/-- Backslash character. -/
def bs : Char := Char.ofNat 92

/-- Opening curly bracket. -/
def lbr : Char := Char.ofNat 123

/-- Closing curly bracket. -/
def rbr : Char := Char.ofNat 125

/-- Whitespace characters stripped by Python `str.strip()`. -/
def pySpaceChars : List Char :=
  [' ', '\t', '\n', Char.ofNat 11, Char.ofNat 12, '\r',
   Char.ofNat 28, Char.ofNat 29, Char.ofNat 30, Char.ofNat 31,
   Char.ofNat 133, Char.ofNat 160, Char.ofNat 5760,
   Char.ofNat 8192, Char.ofNat 8193, Char.ofNat 8194, Char.ofNat 8195,
   Char.ofNat 8196, Char.ofNat 8197, Char.ofNat 8198, Char.ofNat 8199,
   Char.ofNat 8200, Char.ofNat 8201, Char.ofNat 8202,
   Char.ofNat 8232, Char.ofNat 8233, Char.ofNat 8239,
   Char.ofNat 8287, Char.ofNat 12288]

/-- Membership in the Python whitespace set. -/
def isPySpace (c : Char) : Bool := pySpaceChars.contains c

/-- Line-boundary characters of Python `str.splitlines()`. -/
def lineBreakChars : List Char :=
  ['\n', '\r', Char.ofNat 11, Char.ofNat 12,
   Char.ofNat 28, Char.ofNat 29, Char.ofNat 30,
   Char.ofNat 133, Char.ofNat 8232, Char.ofNat 8233]

/-- Membership in the line-boundary set. -/
def isLineBreak (c : Char) : Bool := lineBreakChars.contains c

/-- Python `s.startswith(p)`. -/
def pyStartsWith (p s : List Char) : Bool := List.take p.length s = p

/-- Python substring containment `p in s`. -/
def containsSub (p : List Char) : List Char → Bool
  | [] => p.isEmpty
  | c :: rest => pyStartsWith p (c :: rest) || containsSub p rest

/-- Python `str.lstrip()`. -/
def pyLStrip (s : List Char) : List Char := s.dropWhile isPySpace

/-- Python `str.strip()`: drop whitespace from both ends. -/
def pyStrip (s : List Char) : List Char :=
  ((pyLStrip s).reverse.dropWhile isPySpace).reverse

/-- Collapse of the two-character sequence CR LF into a single LF, the
preprocessing step of our `str.splitlines()` model. -/
def normNewlines : List Char → List Char
  | [] => []
  | [c] => [c]
  | c :: d :: rest =>
    if c = '\r' && d = '\n' then '\n' :: normNewlines rest
    else c :: normNewlines (d :: rest)

/-- Accumulator loop of `str.splitlines()`: split on every line-boundary
character, no trailing empty line. -/
def splitBreaks : List Char → List Char → List (List Char)
  | [], acc => if acc.isEmpty then [] else [acc.reverse]
  | c :: rest, acc =>
    if isLineBreak c then acc.reverse :: splitBreaks rest []
    else splitBreaks rest (c :: acc)

/-- Python `str.splitlines()`. -/
def pySplitlines (s : List Char) : List (List Char) :=
  splitBreaks (normNewlines s) []

/-- Python `line.split("  ")`: split on each non-overlapping occurrence of
two consecutive spaces, scanning left to right. -/
def splitDoubleSpace : List Char → List (List Char)
  | a :: b :: rest =>
    if a = ' ' && b = ' ' then [] :: splitDoubleSpace rest
    else
      match splitDoubleSpace (b :: rest) with
      | [] => [[a]]
      | hd :: tl => (a :: hd) :: tl
  | l => [l]

/-- Python `"\n".join(chunks)`. -/
def joinNl : List (List Char) → List Char
  | [] => []
  | [c] => c
  | c :: cs => c ++ '\n' :: joinNl cs

/-- Python `str.lower()`, character-wise. -/
def pyLower (s : List Char) : List Char := s.map Char.toLower

/-- Python `str.upper()`, character-wise. -/
def pyUpper (s : List Char) : List Char := s.map Char.toUpper

/-! ## HTML document model

An HTML document is a list of nodes; a node is a text node or an element
with a tag and children.  `BeautifulSoup(html).get_text()` concatenates
the text nodes in document order. -/

/-- Parsed HTML node. -/
inductive Node where
  | text (s : List Char)
  | elem (tag : List Char) (children : List Node)

/-- Tag name of elements removed by the scraper. -/
def scriptTag : List Char := "script".toList

/-- Tag name of elements removed by the scraper. -/
def styleTag : List Char := "style".toList

mutual

/-- Removal of `script` and `style` elements together with their whole
subtree, the effect of `for s in soup(["script", "style"]): s.extract()`. -/
def stripNode : Node → Option Node
  | .text s => some (.text s)
  | .elem t cs =>
    if t = scriptTag || t = styleTag then none
    else some (.elem t (stripNodes cs))

/-- List version of `stripNode`. -/
def stripNodes : List Node → List Node
  | [] => []
  | n :: ns =>
    match stripNode n with
    | some m => m :: stripNodes ns
    | none => stripNodes ns

end

mutual

/-- In-order concatenation of text nodes, the model of `soup.get_text()`. -/
def getText : Node → List Char
  | .text s => s
  | .elem _ cs => getTextList cs

/-- List version of `getText`. -/
def getTextList : List Node → List Char
  | [] => []
  | n :: ns => getText n ++ getTextList ns

end

mutual

/-- Modelled from the spec: the text fragments of a document that do not
lie inside a `script` or `style` element, in document order. -/
def visTexts : Node → List (List Char)
  | .text s => [s]
  | .elem t cs => if t = scriptTag || t = styleTag then [] else visTextsList cs

/-- List version of `visTexts`. -/
def visTextsList : List Node → List (List Char)
  | [] => []
  | n :: ns => visTexts n ++ visTextsList ns

end

/-! ## Extractor (`scrape_website`, lines 42-66) -/

/-- Outcome of `requests.get(url, headers=..., timeout=10)`: either a
response with a status code and a parsed HTML body, or a raised network
exception carrying its message. -/
inductive HttpOutcome where
  | response (status : Nat) (body : List Node)
  | netExc (msg : List Char)

/-- Message of the `requests.HTTPError` raised by `raise_for_status` for
a 4xx or 5xx status. -/
def http_error_text (status : Nat) : List Char :=
  Nat.toDigits 10 status ++
    (if status < 500 then " Client Error".toList else " Server Error".toList)

/-- Prefix the handler tests with `startswith` at line 79. -/
def errTag : List Char := "ERROR:".toList

/-- Prefix of the string built by `return f"ERROR: ..."` at line 66. -/
def errPre : List Char := "ERROR: ".toList

/-- Line normalization of `scrape_website` (lines 57-62): split the text
into lines, strip each, split each stripped line on double spaces, strip
the resulting phrases, drop empty chunks and rejoin with newlines. -/
def normalizeText (t : List Char) : List Char :=
  let lines := (pySplitlines t).map pyStrip
  let chunks := (lines.map (fun l => (splitDoubleSpace l).map pyStrip)).flatten
  joinNl (chunks.filter (fun c => !c.isEmpty))

/-- Model of `scrape_website` (lines 42-66).  `raise_for_status` raises
exactly for statuses in [400, 600); any exception is caught and rendered
as an `"ERROR: "`-prefixed string. -/
def scrape_website (fetch : HttpOutcome) : List Char :=
  match fetch with
  | .netExc e => errPre ++ e
  | .response status body =>
    if 400 ≤ status ∧ status < 600 then errPre ++ http_error_text status
    else normalizeText (getTextList (stripNodes body))

/-! ## JSON values

Model of the values produced by `json.loads` (numbers restricted to
integers, string escapes restricted to backslash and double quote: the
replies this program contracts for use neither floats nor other
escapes). -/

/-- JSON value. -/
inductive JVal where
  | jnull
  | jbool (b : Bool)
  | jnum (n : Int)
  | jstr (s : List Char)
  | jarr (elems : List JVal)
  | jobj (fields : List (List Char × JVal))

/-- Escaping of one character inside a JSON string literal. -/
def escChar (c : Char) : List Char := if c = qt || c = bs then [bs, c] else [c]

/-- Escaping of a whole string body. -/
def escStr (s : List Char) : List Char := (s.map escChar).flatten

/-- Decimal rendering of an integer. -/
def intChars (n : Int) : List Char :=
  if n < 0 then '-' :: Nat.toDigits 10 n.natAbs else Nat.toDigits 10 n.natAbs

mutual

/-- Canonical compact serialization of a JSON value. -/
def serialize : JVal → List Char
  | .jnull => "null".toList
  | .jbool true => "true".toList
  | .jbool false => "false".toList
  | .jnum n => intChars n
  | .jstr s => qt :: escStr s ++ [qt]
  | .jarr xs => Char.ofNat 91 :: serializeItems xs ++ [Char.ofNat 93]
  | .jobj fs => lbr :: serializeFields fs ++ [rbr]

/-- Comma-separated serialization of array elements. -/
def serializeItems : List JVal → List Char
  | [] => []
  | [x] => serialize x
  | x :: xs => serialize x ++ ',' :: serializeItems xs

/-- Comma-separated serialization of object members. -/
def serializeFields : List (List Char × JVal) → List Char
  | [] => []
  | [(k, v)] => qt :: escStr k ++ qt :: ':' :: serialize v
  | (k, v) :: fs => qt :: escStr k ++ qt :: ':' :: serialize v ++ ',' :: serializeFields fs

end

/-- JSON insignificant whitespace. -/
def jsonWsChars : List Char := [' ', '\t', '\n', '\r']

/-- Membership in the JSON whitespace set. -/
def isJsonWs (c : Char) : Bool := jsonWsChars.contains c

/-- Skip insignificant whitespace. -/
def skipWs (s : List Char) : List Char := s.dropWhile isJsonWs

/-- Parse the body of a JSON string literal after the opening quote,
returning the decoded body and the rest of the input. -/
def pStringBody : List Char → Option (List Char × List Char)
  | [] => none
  | c :: rest =>
    if c = qt then some ([], rest)
    else if c = bs then
      match rest with
      | [] => none
      | d :: rest2 =>
        if d = qt || d = bs then
          match pStringBody rest2 with
          | none => none
          | some (body, r) => some (d :: body, r)
        else none
    else
      match pStringBody rest with
      | none => none
      | some (body, r) => some (c :: body, r)

/-- Parse a complete quoted JSON string literal. -/
def pQString : List Char → Option (List Char × List Char)
  | [] => none
  | c :: rest => if c = qt then pStringBody rest else none

/-- Decimal digit test. -/
def isDig (c : Char) : Bool := '0' ≤ c && c ≤ '9'

/-- Value of a decimal digit character. -/
def digitVal (c : Char) : Nat := c.toNat - 48

/-- Parse a nonempty run of decimal digits. -/
def pDigits (s : List Char) : Option (Nat × List Char) :=
  let ds := s.takeWhile isDig
  if ds.isEmpty then none
  else some (ds.foldl (fun acc c => 10 * acc + digitVal c) 0, s.dropWhile isDig)

/-- Parse a JSON integer literal. -/
def pNum : List Char → Option (JVal × List Char)
  | [] => none
  | c :: rest =>
    if c = '-' then
      match pDigits rest with
      | none => none
      | some (n, r) => some (.jnum (-(n : Int)), r)
    else
      match pDigits (c :: rest) with
      | none => none
      | some (n, r) => some (.jnum (n : Int), r)

mutual

/-- Fueled recursive-descent parser for a JSON value. -/
def pVal : Nat → List Char → Option (JVal × List Char)
  | 0, _ => none
  | fuel+1, s =>
    match skipWs s with
    | [] => none
    | c :: rest =>
      if c = qt then
        match pStringBody rest with
        | none => none
        | some (body, r) => some (.jstr body, r)
      else if c = lbr then
        match skipWs rest with
        | [] => none
        | d :: rest2 =>
          if d = rbr then some (.jobj [], rest2)
          else pObjFields fuel (d :: rest2)
      else if c = Char.ofNat 91 then
        match skipWs rest with
        | [] => none
        | d :: rest2 =>
          if d = Char.ofNat 93 then some (.jarr [], rest2)
          else pArrItems fuel (d :: rest2)
      else if pyStartsWith "true".toList (c :: rest) then
        some (.jbool true, (c :: rest).drop 4)
      else if pyStartsWith "false".toList (c :: rest) then
        some (.jbool false, (c :: rest).drop 5)
      else if pyStartsWith "null".toList (c :: rest) then
        some (.jnull, (c :: rest).drop 4)
      else pNum (c :: rest)

/-- Parse a nonempty member list of a JSON object, consuming the closing
bracket. -/
def pObjFields : Nat → List Char → Option (JVal × List Char)
  | 0, _ => none
  | fuel+1, s =>
    match pQString (skipWs s) with
    | none => none
    | some (k, s1) =>
      match skipWs s1 with
      | [] => none
      | c :: s2 =>
        if c = ':' then
          match pVal fuel s2 with
          | none => none
          | some (v, s3) =>
            match skipWs s3 with
            | [] => none
            | d :: s4 =>
              if d = ',' then
                match pObjFields fuel s4 with
                | some (.jobj fs, r) => some (.jobj ((k, v) :: fs), r)
                | _ => none
              else if d = rbr then some (.jobj [(k, v)], s4)
              else none
        else none

/-- Parse a nonempty element list of a JSON array, consuming the closing
bracket. -/
def pArrItems : Nat → List Char → Option (JVal × List Char)
  | 0, _ => none
  | fuel+1, s =>
    match pVal fuel s with
    | none => none
    | some (v, s1) =>
      match skipWs s1 with
      | [] => none
      | d :: s2 =>
        if d = ',' then
          match pArrItems fuel s2 with
          | some (.jarr xs, r) => some (.jarr (v :: xs), r)
          | _ => none
        else if d = Char.ofNat 93 then some (.jarr [v], s2)
        else none

end

/-- Model of `json.loads`: parse a complete JSON document, rejecting
trailing garbage. -/
def parseJson (s : List Char) : Option JVal :=
  match pVal (s.length + 1) s with
  | none => none
  | some (v, rest) => if (skipWs rest).isEmpty then some v else none

/-- Python `dict.get` over the member list produced by `json.loads`
(a later duplicate key overrides an earlier one). -/
def objGet (fs : List (List Char × JVal)) (k : List Char) : Option JVal :=
  fs.foldl (fun acc p => if p.1 = k then some p.2 else acc) none

/-- Python truthiness of a decoded JSON value. -/
def truthy : JVal → Bool
  | .jnull => false
  | .jbool b => b
  | .jnum n => n != 0
  | .jstr s => !s.isEmpty
  | .jarr xs => !xs.isEmpty
  | .jobj fs => !fs.isEmpty

/-- Python iterability of a decoded JSON value. -/
def iterable : JVal → Bool
  | .jstr _ => true
  | .jarr _ => true
  | .jobj _ => true
  | _ => false

/-! ## Response normalization (lines 150-158) -/

/-- The fence marker, three backticks. -/
def ticks : List Char := [btk, btk, btk]

/-- The fence language tag. -/
def jsonWord : List Char := "json".toList

/-- Splitting on every non-overlapping occurrence of three backticks,
scanning left to right: Python `text.split("```")`  (here the separator
is written as three backtick characters). -/
def splitTicks : List Char → List (List Char)
  | a :: b :: c :: rest =>
    if a = btk && b = btk && c = btk then [] :: splitTicks rest
    else
      match splitTicks (b :: c :: rest) with
      | [] => [[a]]
      | hd :: tl => (a :: hd) :: tl
  | l => [l]

/-- Occurrence test for three consecutive backticks, following the same
scan as `splitTicks`. -/
def hasTicks : List Char → Bool
  | a :: b :: c :: rest => (a = btk && b = btk && c = btk) || hasTicks (b :: c :: rest)
  | _ => false

/-- Response cleaning of lines 151-158: strip, then if the reply starts
with a fence take the first fenced segment, drop an optional leading
language tag, and strip again. -/
def cleanResponse (raw : List Char) : List Char :=
  let t0 := pyStrip raw
  let t1 :=
    if pyStartsWith ticks t0 then
      let parts := splitTicks t0
      if 2 ≤ parts.length then
        let p := parts.getD 1 []
        if pyStartsWith jsonWord p then p.drop 4 else p
      else t0
    else t0
  pyStrip t1

/-- A reply wrapped in a fenced code block labeled with the language tag,
as described by the spec. -/
def fenceWrap (s : List Char) : List Char :=
  ticks ++ jsonWord ++ '\n' :: s ++ '\n' :: ticks

/-! ## Model selection (`get_best_model`, lines 87-108) -/

/-- Entry of the provider catalog returned by `genai.list_models()`. -/
structure GModel where
  name : List Char
  supported_generation_methods : List (List Char)

/-- The capability string filtered for. -/
def genContent : List Char := "generateContent".toList

/-- Second component of the pair returned by `get_best_model`. -/
inductive DebugInfo where
  | names (ns : List (List Char))
  | msg (m : List Char)

/-- Message for an empty filtered catalog (line 95). -/
def noValidMsg : List Char := "No models found that support generateContent.".toList

/-- Message prefix for a catalog-listing exception (line 108). -/
def listErrPre : List Char := "Error listing models: ".toList

/-- Tier keyword searched for first (line 98). -/
def flashWord : List Char := "flash".toList

/-- Tier keyword searched for second (line 102). -/
def proWord : List Char := "pro".toList

/-- Capability filter of line 92. -/
def supportsGen (m : GModel) : Bool :=
  m.supported_generation_methods.contains genContent

/-- Model of `get_best_model` (lines 87-108): filter the catalog for
`generateContent` support, then prefer the first name containing
"flash", else the first containing "pro", else the first remaining. -/
def get_best_model (catalog : Except (List Char) (List GModel)) :
    Option (List Char) × DebugInfo :=
  match catalog with
  | .error e => (none, .msg (listErrPre ++ e))
  | .ok models =>
    let valid := models.filter supportsGen
    match valid with
    | [] => (none, .msg noValidMsg)
    | v0 :: _ =>
      let names := valid.map (fun m => m.name)
      match valid.find? (fun m => containsSub flashWord (pyLower m.name)) with
      | some m => (some m.name, .names names)
      | none =>
        match valid.find? (fun m => containsSub proWord (pyLower m.name)) with
        | some m => (some m.name, .names names)
        | none => (some v0.name, .names names)

/-! ## Prompt construction (lines 119-145) -/

/-- Text of the instruction template before the embedded source text
(the f-string of lines 119-139, indentation included). -/
def promptPre : List Char :=
  ("\n                        You are a strict compliance and quality control officer for advertising.\n                        \n                        Your task is to verify an \x27Ad Script\x27 against the ground truth text from a \x27Source Website\x27.\n                        \n                        Step 1: Analyize the \x27Source Website Text\x27 to understand the facts, features, and tone.\n                        Step 2: Check the \x27Ad Script\x27 for any factual hallucinations (claims not supported by the website).\n                        Step 3: Analyze if the tone of the ad matches the website\x27s voice.\n                        Step 4: Assign a quality score from 0-100.\n                        \n                        Return a valid JSON object ONLY. Do not use Markdown code blocks.\n                        Structure:\n                        \x7b\n                            \"score\": (integer 0-100),\n                            \"hallucinations\": [\"string list of specific claims in the ad that exist nowhere on the site\"],\n                            \"tone_consistency\": \"Brief analysis of whether the ad voice matches the site voice\",\n                            \"verdict\": \"PASS\" (if score > 80 and no major hallucinations) or \"FAIL\"\n                        \x7d\n                        \n                        ---\n                        Source Website Text:\n                        ").toList

/-- Text of the template between the embedded source text and the
embedded ad script (lines 140-144). -/
def promptMid : List Char :=
  (" \n                        \n                        ---\n                        Ad Script:\n                        ").toList

/-- Text of the template after the embedded ad script (line 145). -/
def promptPost : List Char := "\n                        ".toList

/-- Truncation bound applied to the site text (`site_text[:30000]`). -/
def siteTextCap : Nat := 30000

/-- Prompt of lines 119-145: the fixed template with the site text
truncated to `siteTextCap` characters and the ad script verbatim. -/
def buildPrompt (site_text ad_script : List Char) : List Char :=
  promptPre ++ site_text.take siteTextCap ++ promptMid ++ ad_script ++ promptPost

/-! ## Result display (lines 165-185) -/

/-- Field key. -/
def kScore : List Char := "score".toList

/-- Field key. -/
def kVerdict : List Char := "verdict".toList

/-- Field key. -/
def kTone : List Char := "tone_consistency".toList

/-- Field key. -/
def kHalls : List Char := "hallucinations".toList

/-- Default verdict string. -/
def sFAIL : List Char := "FAIL".toList

/-- Default tone string. -/
def sNA : List Char := "N/A".toList

/-- Values handed to the presentation layer on a fully successful
request: the four rendered fields of lines 165-179. -/
structure Rendered where
  score : JVal
  verdict : List Char
  tone : JVal
  hallucinations : JVal

/-- Message of the `AttributeError` raised by `.upper()` on a
non-string verdict value (line 168). -/
def upperErrMsg : List Char := "object has no attribute upper".toList

/-- Message of the `TypeError` raised by iterating a non-iterable
hallucination value (line 182). -/
def iterErrMsg : List Char := "object is not iterable".toList

/-- Message of the `AttributeError` raised by `.get` on a decoded value
that is not a dict (line 165). -/
def dictErrMsg : List Char := "object has no attribute get".toList

/-- Model of the display steps of lines 165-185: `dict.get` with the
safe defaults, `.upper()` on the verdict (an exception unless it is a
string), and iteration over the hallucination list when it is truthy
(an exception unless it is iterable). -/
def renderResult : JVal → Except (List Char) Rendered
  | .jobj fs =>
    let score := (objGet fs kScore).getD (.jnum 0)
    match (objGet fs kVerdict).getD (.jstr sFAIL) with
    | .jstr vs =>
      let tone := (objGet fs kTone).getD (.jstr sNA)
      let halls := (objGet fs kHalls).getD (.jarr [])
      if truthy halls && !iterable halls then .error iterErrMsg
      else .ok ⟨score, pyUpper vs, tone, halls⟩
    | _ => .error upperErrMsg
  | _ => .error dictErrMsg

/-! ## Request handler (`verify_btn` block, lines 68-191) -/

/-- The three text inputs of the form. -/
structure Inputs where
  gemini_key : List Char
  target_url : List Char
  ad_script : List Char

/-- Outcome of the single `model.generate_content(prompt)` call. -/
inductive GenOutcome where
  | reply (text : List Char)
  | exc (msg : List Char)

/-- The external world of one request: the fetch outcome, the provider
catalog (or a listing exception) and the generation outcome. -/
structure World where
  fetch : HttpOutcome
  catalog : Except (List Char) (List GModel)
  gen : GenOutcome

/-- External calls the handler can perform, in order. -/
inductive Event where
  | scrapeCall
  | listModelsCall
  | genCall (prompt : List Char)

/-- Terminal state of one request. -/
inductive Outcome where
  | inputMissing (m : List Char)
  | scrapeFailed (m : List Char)
  | modelUnavailable (dbg : DebugInfo)
  | analysisFailed (m : List Char) (raw : Option (List Char))
  | verified (modelName : List Char) (r : Rendered)

/-- Input-missing message of line 70. -/
def msgKey : List Char := "Please enter your Google Gemini API Key.".toList

/-- Input-missing message of line 72. -/
def msgUrl : List Char := "Please enter a Target URL.".toList

/-- Input-missing message of line 74. -/
def msgScript : List Char := "Please enter the Ad Script.".toList

/-- Prefix of the scrape-failure message of line 80. -/
def scrapeFailPre : List Char := "Failed to scrape website: ".toList

/-- Prefix of the analysis-failure message of line 188. -/
def analysisPre : List Char := "Analysis failed: ".toList

/-- Message of the `json.JSONDecodeError` raised by `json.loads`. -/
def jsonErrMsg : List Char := "Expecting value".toList

/-- Model of the `verify_btn` block (lines 68-191): input checks in
order, scrape, the `startswith("ERROR:")` gate, model selection, prompt
construction, generation, response cleaning, JSON parsing and display.
The second component records which external calls were performed. -/
def verifyHandler (inp : Inputs) (w : World) : Outcome × List Event :=
  if inp.gemini_key.isEmpty then (.inputMissing msgKey, [])
  else if inp.target_url.isEmpty then (.inputMissing msgUrl, [])
  else if inp.ad_script.isEmpty then (.inputMissing msgScript, [])
  else
    let site_text := scrape_website w.fetch
    if pyStartsWith errTag site_text then
      (.scrapeFailed (scrapeFailPre ++ site_text), [.scrapeCall])
    else
      match get_best_model w.catalog with
      | (none, dbg) => (.modelUnavailable dbg, [.scrapeCall, .listModelsCall])
      | (some mname, _) =>
        let prompt := buildPrompt site_text inp.ad_script
        let events := [Event.scrapeCall, Event.listModelsCall, Event.genCall prompt]
        match w.gen with
        | .exc e => (.analysisFailed (analysisPre ++ e) none, events)
        | .reply rawReply =>
          match parseJson (cleanResponse rawReply) with
          | none => (.analysisFailed (analysisPre ++ jsonErrMsg) (some rawReply), events)
          | some v =>
            match renderResult v with
            | .error m => (.analysisFailed (analysisPre ++ m) (some rawReply), events)
            | .ok r => (.verified mname r, events)

/-! ## Claim-side definitions -/

/-- Modelled from the spec: the input-missing message for the first blank
input, in the order the handler checks them. -/
def firstBlankMsg (inp : Inputs) : List Char :=
  if inp.gemini_key.isEmpty then msgKey
  else if inp.target_url.isEmpty then msgUrl
  else msgScript

/-- Modelled from the spec: the first listed model supporting content
generation whose lowercased name contains "flash"; if none, the first
whose lowercased name contains "pro"; if none, the first supporting
content generation. -/
def selectModelSpec (ms : List GModel) : Option (List Char) :=
  match ms.find? (fun m => supportsGen m && containsSub flashWord (pyLower m.name)) with
  | some m => some m.name
  | none =>
    match ms.find? (fun m => supportsGen m && containsSub proWord (pyLower m.name)) with
    | some m => some m.name
    | none => (ms.find? supportsGen).map (fun m => m.name)

/-- Member list of the reply object used as a running example, the one
from the spec: score 90, verdict PASS, no hallucinations, tone "ok". -/
def exFields : List (List Char × JVal) :=
  [(kScore, .jnum 90), (kVerdict, .jstr "PASS".toList),
   (kHalls, .jarr []), (kTone, .jstr "ok".toList)]

/-- Reply object whose single string value consists of three backticks. -/
def tickObj : JVal := .jobj [("k".toList, .jstr ticks)]

/-! ## Theorems -/

/-- C1: for every request in which the Extractor returns an error result
(its string starts with "ERROR:"), the handler reports only the scrape
failure and performs no model-listing call, no prompt construction and
no generation call. -/
theorem extractor_error_skips_verifier (inp : Inputs) (w : World)
    (hk : inp.gemini_key.isEmpty = false)
    (hu : inp.target_url.isEmpty = false)
    (ha : inp.ad_script.isEmpty = false)
    (he : pyStartsWith errTag (scrape_website w.fetch) = true) :
    verifyHandler inp w =
      (.scrapeFailed (scrapeFailPre ++ scrape_website w.fetch), [.scrapeCall]) := by
  simp [verifyHandler, hk, hu, ha, he]

/-- Witness for C1 at a concrete failing fetch. -/
theorem extractor_error_skips_verifier_witness :
    verifyHandler ⟨"key".toList, "https://x".toList, "ad".toList⟩
        ⟨.netExc "boom".toList, .ok [], .reply []⟩ =
      (.scrapeFailed (scrapeFailPre ++
        scrape_website (HttpOutcome.netExc "boom".toList)), [.scrapeCall]) :=
  extractor_error_skips_verifier _ _ rfl rfl rfl rfl

/-- C9: for every request in which the credential, the URL or the ad
script is blank, the handler stops with the input-missing message for
the first blank input and performs no external call at all. -/
theorem blank_input_stops_request (inp : Inputs) (w : World)
    (h : (inp.gemini_key.isEmpty || inp.target_url.isEmpty || inp.ad_script.isEmpty) = true) :
    verifyHandler inp w = (.inputMissing (firstBlankMsg inp), []) := by
  rcases hk : inp.gemini_key.isEmpty <;>
    rcases hu : inp.target_url.isEmpty <;>
      rcases ha : inp.ad_script.isEmpty <;>
        simp_all [verifyHandler, firstBlankMsg]

/-- Witness for C9 at a concrete blank credential. -/
theorem blank_input_stops_request_witness :
    verifyHandler ⟨[], "https://x".toList, "ad".toList⟩
        ⟨.netExc [], .ok [], .reply []⟩ =
      (.inputMissing (firstBlankMsg ⟨[], "https://x".toList, "ad".toList⟩), []) :=
  blank_input_stops_request _ _ (by decide)

/-- C10: a successful fetch (HTTP 200) whose extracted visible text
itself begins with "ERROR:" is classified as a scrape failure and the
Verifier is never invoked, because success and failure share the string
type and are distinguished only by the prefix. -/
theorem error_prefixed_page_text_misclassified :
    scrape_website (.response 200 [Node.text "ERROR: everything is fine".toList]) =
      "ERROR: everything is fine".toList ∧
    verifyHandler ⟨"key".toList, "https://x".toList, "ad".toList⟩
        ⟨.response 200 [Node.text "ERROR: everything is fine".toList],
         .ok [⟨"models/gemini-2.5-flash".toList, [genContent]⟩],
         .reply (serialize (.jobj exFields))⟩ =
      (.scrapeFailed (scrapeFailPre ++ "ERROR: everything is fine".toList),
       [.scrapeCall]) :=
  ⟨rfl, rfl⟩

/-- Helper: a string built with the `"ERROR: "` prefix always passes the
`startswith("ERROR:")` test, whatever follows. -/
theorem startsWith_errPre (e : List Char) : pyStartsWith errTag (errPre ++ e) = true := rfl

/-- C4 counterexample: a 304 response is not 2xx, yet `raise_for_status`
does not raise for it, so the Extractor returns the page text with no
"ERROR:" prefix. -/
theorem non2xx_without_error_result :
    scrape_website (.response 304 [Node.text "hello".toList]) = "hello".toList ∧
    pyStartsWith errTag (scrape_website (.response 304 [Node.text "hello".toList])) = false :=
  ⟨rfl, rfl⟩

/-- C4 amended: for every fetch that yields a 4xx or 5xx status or
raises a network exception, the Extractor returns an error string
prefixed "ERROR: " that preserves the underlying error text, and never
returns the failure as page text; statuses outside [400, 600) are not
treated as errors. -/
theorem fetch_failure_yields_error_string (status : Nat) (body : List Node) (e : List Char)
    (h4 : 400 ≤ status) (h6 : status < 600) :
    scrape_website (.response status body) = errPre ++ http_error_text status ∧
    pyStartsWith errTag (scrape_website (.response status body)) = true ∧
    scrape_website (.netExc e) = errPre ++ e ∧
    pyStartsWith errTag (scrape_website (.netExc e)) = true := by
  have hs : scrape_website (.response status body) = errPre ++ http_error_text status := by
    simp [scrape_website, h4, h6]
  refine ⟨hs, ?_, rfl, startsWith_errPre e⟩
  rw [hs]
  exact startsWith_errPre _

/-- Witness for C4 at a concrete 404 response and a concrete timeout. -/
theorem fetch_failure_yields_error_string_witness :
    scrape_website (.response 404 []) = errPre ++ http_error_text 404 ∧
    pyStartsWith errTag (scrape_website (.response 404 [])) = true ∧
    scrape_website (.netExc "timed out".toList) = errPre ++ "timed out".toList ∧
    pyStartsWith errTag (scrape_website (.netExc "timed out".toList)) = true :=
  fetch_failure_yields_error_string 404 [] "timed out".toList (by decide) (by decide)

/-- C8: the prompt embeds the source text truncated to its first 30000
characters (a source text of at most 30000 characters is embedded
unchanged) and embeds the full ad script verbatim, untruncated. -/
theorem prompt_truncates_site_and_embeds_script (site ad : List Char) :
    buildPrompt site ad = buildPrompt (site.take siteTextCap) ad ∧
    (site.length ≤ siteTextCap →
      buildPrompt site ad = promptPre ++ site ++ promptMid ++ ad ++ promptPost) ∧
    buildPrompt site ad =
      (promptPre ++ site.take siteTextCap ++ promptMid) ++ ad ++ promptPost := by
  refine ⟨by simp [buildPrompt, List.take_take], ?_, by simp [buildPrompt]⟩
  intro h
  simp [buildPrompt, List.take_of_length_le h]

/-- Witness for C8 at a concrete short source text and ad script. -/
theorem prompt_truncates_site_and_embeds_script_witness :
    buildPrompt "Our coffee is organic.".toList "Best coffee!".toList =
      promptPre ++ "Our coffee is organic.".toList ++ promptMid ++
        "Best coffee!".toList ++ promptPost :=
  (prompt_truncates_site_and_embeds_script _ _).2.1 (by decide)

/-- C3: for every successfully parsed reply object, each field the
object omits is replaced by its safe default (score 0, verdict "FAIL",
hallucinations empty, tone_consistency "N/A") and the rendering still
succeeds; in particular a reply missing "hallucinations" yields an
empty hallucination list rather than a failure.  The two hypotheses
only restrict fields that are present (a present verdict must be a
string for `.upper()`, a present truthy hallucination value must be
iterable for the display loop) and are vacuous when those fields are
omitted. -/
theorem omitted_fields_defaulted (fs : List (List Char × JVal))
    (hv : ∀ v, objGet fs kVerdict = some v → ∃ vs, v = JVal.jstr vs)
    (hh : ∀ v, objGet fs kHalls = some v → (truthy v && !iterable v) = false) :
    ∃ r, renderResult (.jobj fs) = .ok r ∧
      (objGet fs kScore = none → r.score = .jnum 0) ∧
      (objGet fs kVerdict = none → r.verdict = sFAIL) ∧
      (objGet fs kTone = none → r.tone = .jstr sNA) ∧
      (objGet fs kHalls = none → r.hallucinations = .jarr []) := by
  have hhc : (truthy ((objGet fs kHalls).getD (.jarr [])) &&
      !iterable ((objGet fs kHalls).getD (.jarr []))) = false := by
    rcases hfh : objGet fs kHalls with _ | w
    · simp [truthy]
    · simpa using hh w hfh
  rcases hfv : objGet fs kVerdict with _ | v
  · exact ⟨⟨(objGet fs kScore).getD (.jnum 0), pyUpper sFAIL,
        (objGet fs kTone).getD (.jstr sNA), (objGet fs kHalls).getD (.jarr [])⟩,
      by simp [renderResult, hfv, hhc],
      fun hs => by simp [hs],
      fun _ => rfl,
      fun ht => by simp [ht],
      fun hha => by simp [hha]⟩
  · obtain ⟨vs, rfl⟩ := hv v hfv
    exact ⟨⟨(objGet fs kScore).getD (.jnum 0), pyUpper vs,
        (objGet fs kTone).getD (.jstr sNA), (objGet fs kHalls).getD (.jarr [])⟩,
      by simp [renderResult, hfv, hhc],
      fun hs => by simp [hs],
      fun hn => by simp at hn,
      fun ht => by simp [ht],
      fun hha => by simp [hha]⟩

/-- Witness for C3 at a reply that carries a nonempty hallucination
list but omits score, verdict and tone, which are therefore defaulted. -/
theorem omitted_fields_defaulted_witness :
    ∃ r, renderResult (.jobj [(kHalls, JVal.jarr [JVal.jstr ['x']])]) = .ok r ∧
      (objGet [(kHalls, JVal.jarr [JVal.jstr ['x']])] kScore = none → r.score = .jnum 0) ∧
      (objGet [(kHalls, JVal.jarr [JVal.jstr ['x']])] kVerdict = none → r.verdict = sFAIL) ∧
      (objGet [(kHalls, JVal.jarr [JVal.jstr ['x']])] kTone = none → r.tone = .jstr sNA) ∧
      (objGet [(kHalls, JVal.jarr [JVal.jstr ['x']])] kHalls = none →
        r.hallucinations = .jarr []) :=
  omitted_fields_defaulted [(kHalls, JVal.jarr [JVal.jstr ['x']])]
    (fun v h => nomatch h)
    (fun v h => by
      have h2 : JVal.jarr [JVal.jstr ['x']] = v := Option.some.inj h
      rw [← h2]
      rfl)

/-- Helper: searching a filtered catalog equals searching the original
catalog with the conjunction of the two predicates. -/
theorem list_find?_filter (p q : GModel → Bool) (l : List GModel) :
    (l.filter p).find? q = l.find? (fun a => p a && q a) := by
  induction l with
  | nil => rfl
  | cons a tl ih =>
    by_cases hp : p a
    · by_cases hq : q a <;> simp [List.filter_cons, List.find?_cons, hp, hq, ih]
    · simp [List.filter_cons, List.find?_cons, hp, ih]

/-- Helper: the head of a nonempty filtered catalog is the first catalog
entry satisfying the filter. -/
theorem list_find?_of_filter_cons (p : GModel → Bool) (l : List GModel)
    (v : GModel) (vs : List GModel) (h : l.filter p = v :: vs) :
    l.find? p = some v := by
  induction l with
  | nil => simp at h
  | cons a tl ih =>
    by_cases hp : p a
    · simp [List.filter_cons, hp] at h
      obtain ⟨h1, h2⟩ := h
      subst h1
      simp [List.find?_cons, hp]
    · simp [List.filter_cons, hp] at h
      simp [List.find?_cons, hp, ih h]

/-- C7: for every provider catalog, model selection returns the first
listed model supporting content generation whose name indicates the
flash tier, else the first indicating the pro tier, else the first
supporting content generation, and it returns no model exactly when no
listed model supports content generation. -/
theorem model_selection_follows_fallback_order (ms : List GModel) :
    (get_best_model (.ok ms)).1 = selectModelSpec ms ∧
    ((get_best_model (.ok ms)).1 = none ↔ ms.filter supportsGen = []) := by
  constructor
  · rcases hval : ms.filter supportsGen with _ | ⟨v0, vs⟩
    · have hall : ∀ m ∈ ms, ¬ supportsGen m = true := by
        rw [List.filter_eq_nil_iff] at hval; exact hval
      have h1 : ms.find? (fun m => supportsGen m &&
          containsSub flashWord (pyLower m.name)) = none := by
        rw [List.find?_eq_none]; intro x hx; simp [hall x hx]
      have h2 : ms.find? (fun m => supportsGen m &&
          containsSub proWord (pyLower m.name)) = none := by
        rw [List.find?_eq_none]; intro x hx; simp [hall x hx]
      have h3 : ms.find? supportsGen = none := by
        rw [List.find?_eq_none]; intro x hx; exact hall x hx
      simp [get_best_model, selectModelSpec, hval, h1, h2, h3]
    · have hf := list_find?_filter supportsGen
        (fun m => containsSub flashWord (pyLower m.name)) ms
      have hp := list_find?_filter supportsGen
        (fun m => containsSub proWord (pyLower m.name)) ms
      rw [hval] at hf hp
      simp only [get_best_model, selectModelSpec, hval, ← hf, ← hp]
      rcases hfl : (v0 :: vs).find?
          (fun m => containsSub flashWord (pyLower m.name)) with _ | mf
      · rcases hpr : (v0 :: vs).find?
            (fun m => containsSub proWord (pyLower m.name)) with _ | mp
        · have h0 := list_find?_of_filter_cons supportsGen ms v0 vs hval
          simp [hfl, hpr, h0]
        · simp [hfl, hpr]
      · simp [hfl]
  · rcases hval : ms.filter supportsGen with _ | ⟨v0, vs⟩
    · simp [get_best_model, hval]
    · constructor
      · intro h
        exfalso
        rcases hfl : (v0 :: vs).find?
            (fun m => containsSub flashWord (pyLower m.name)) with _ | mf
        · rcases hpr : (v0 :: vs).find?
              (fun m => containsSub proWord (pyLower m.name)) with _ | mp
          · simp [get_best_model, hval, hfl, hpr] at h
          · simp [get_best_model, hval, hfl, hpr] at h
        · simp [get_best_model, hval, hfl] at h
      · intro h
        simp at h

mutual

/-- Helper: text of a stripped node comes exactly from its fragments
outside script and style blocks. -/
theorem getText_stripNode (n : Node) :
    (match stripNode n with | some m => getText m | none => []) = (visTexts n).flatten := by
  cases n with
  | text s => simp [stripNode, getText, visTexts]
  | elem t cs =>
    by_cases hb : (t = scriptTag || t = styleTag) = true
    · simp [stripNode, visTexts, hb]
    · simp only [stripNode, visTexts, hb, Bool.false_eq_true, if_false, getText]
      exact getText_stripNodes cs

/-- Helper: list version of `getText_stripNode`. -/
theorem getText_stripNodes (d : List Node) :
    getTextList (stripNodes d) = (visTextsList d).flatten := by
  cases d with
  | nil => rfl
  | cons n ns =>
    have hn := getText_stripNode n
    have hns := getText_stripNodes ns
    cases h : stripNode n with
    | none =>
      rw [h] at hn
      simp [stripNodes, h, visTextsList, List.flatten_append, ← hn, hns]
    | some m =>
      rw [h] at hn
      simp [stripNodes, h, getTextList, visTextsList, List.flatten_append, ← hn, hns]

end

/-- C5: the text extracted after removing script and style elements is
built from exactly the text fragments lying outside every script and
style block, so a successful scrape contains none of the text inside
those blocks: it equals the normalization of the visible fragments
alone. -/
theorem scrape_ignores_script_and_style (d : List Node) :
    getTextList (stripNodes d) = (visTextsList d).flatten ∧
    scrape_website (.response 200 d) = normalizeText ((visTextsList d).flatten) := by
  have hc : ¬ (400 ≤ 200 ∧ 200 < 600) := by decide
  exact ⟨getText_stripNodes d, by simp [scrape_website, hc, getText_stripNodes d]⟩

/-- Helper: stripping only removes characters. -/
theorem mem_pyStrip (s : List Char) (c : Char) (h : c ∈ pyStrip s) : c ∈ s := by
  unfold pyStrip pyLStrip at h
  rw [List.mem_reverse] at h
  have h1 := (List.dropWhile_sublist isPySpace).mem h
  rw [List.mem_reverse] at h1
  exact (List.dropWhile_sublist isPySpace).mem h1

/-- Helper: double-space splitting only removes characters. -/
theorem mem_splitDoubleSpace (l : List Char) :
    ∀ part ∈ splitDoubleSpace l, ∀ c ∈ part, c ∈ l := by
  induction l using splitDoubleSpace.induct with
  | case1 a b rest h ih =>
    intro part hp c hc
    rw [splitDoubleSpace, if_pos h] at hp
    rcases List.mem_cons.1 hp with h1 | h1
    · subst h1; simp at hc
    · simp [ih part h1 c hc]
  | case2 a b rest h hnil ih =>
    intro part hp c hc
    rw [splitDoubleSpace, if_neg h, hnil] at hp
    simp at hp
    subst hp
    simp at hc
    simp [hc]
  | case3 a b rest h hd tl heq ih =>
    intro part hp c hc
    rw [splitDoubleSpace, if_neg h, heq] at hp
    rcases List.mem_cons.1 hp with h1 | h1
    · subst h1
      rcases List.mem_cons.1 hc with h2 | h2
      · simp [h2]
      · have := ih hd (by rw [heq]; simp) c h2
        simp [this]
    · have := ih part (by rw [heq]; exact List.mem_cons_of_mem _ h1) c hc
      simp [this]
  | case4 l hne =>
    intro part hp c hc
    cases l with
    | nil =>
      simp [splitDoubleSpace] at hp
      subst hp
      simp at hc
    | cons a tl =>
      cases tl with
      | nil =>
        simp [splitDoubleSpace] at hp
        subst hp
        exact hc
      | cons b r => exact absurd rfl (hne a b r)

/-- Helper: no line produced by the splitlines loop contains a
line-boundary character. -/
theorem splitBreaks_no_break (s : List Char) : ∀ (acc : List Char),
    (∀ c ∈ acc, isLineBreak c = false) →
    ∀ l ∈ splitBreaks s acc, ∀ c ∈ l, isLineBreak c = false := by
  induction s with
  | nil =>
    intro acc hacc l hl c hc
    rw [splitBreaks] at hl
    by_cases he : acc.isEmpty
    · simp [he] at hl
    · simp [he] at hl
      subst hl
      exact hacc c (List.mem_reverse.1 hc)
  | cons d rest ih =>
    intro acc hacc l hl c hc
    rw [splitBreaks] at hl
    by_cases hd : isLineBreak d
    · rw [if_pos hd] at hl
      rcases List.mem_cons.1 hl with h1 | h1
      · subst h1; exact hacc c (List.mem_reverse.1 hc)
      · exact ih [] (by simp) l h1 c hc
    · rw [if_neg hd] at hl
      refine ih (d :: acc) ?_ l hl c hc
      intro x hx
      rcases List.mem_cons.1 hx with h1 | h1
      · subst h1; simpa using hd
      · exact hacc x h1

/-- Helper: no line of `pySplitlines` contains a line boundary. -/
theorem pySplitlines_no_break (t l : List Char) (hl : l ∈ pySplitlines t) :
    ∀ c ∈ l, isLineBreak c = false :=
  fun c hc => splitBreaks_no_break (normNewlines t) [] (by simp) l hl c hc

/-- Helper: a nonempty `dropWhile` residue starts at a witness of the
failing predicate. -/
theorem dropWhile_not_all (p : Char → Bool) (l : List Char) (h : l.dropWhile p ≠ []) :
    ∃ c ∈ l.dropWhile p, p c = false := by
  induction l with
  | nil => simp [List.dropWhile] at h
  | cons a tl ih =>
    by_cases hp : p a
    · rw [List.dropWhile_cons, if_pos hp] at h ⊢
      exact ih h
    · exact ⟨a, by rw [List.dropWhile_cons, if_neg hp]; simp, by simpa using hp⟩

/-- Helper: a nonempty stripped string contains a non-whitespace
character. -/
theorem pyStrip_not_all_space (s : List Char) (h : pyStrip s ≠ []) :
    (pyStrip s).all isPySpace = false := by
  rw [List.all_eq_false]
  unfold pyStrip at h ⊢
  have h2 : (pyLStrip s).reverse.dropWhile isPySpace ≠ [] := by
    intro he; rw [he] at h; simp at h
  obtain ⟨c, hc, hcp⟩ := dropWhile_not_all isPySpace ((pyLStrip s).reverse) h2
  exact ⟨c, List.mem_reverse.2 hc, by simp [hcp]⟩

/-- Helper: characters of a newline join come from the chunks or are
the separator. -/
theorem mem_joinNl (chunks : List (List Char)) (c : Char) (hc : c ∈ joinNl chunks) :
    c = '\n' ∨ ∃ ch ∈ chunks, c ∈ ch := by
  induction chunks with
  | nil => simp [joinNl] at hc
  | cons ch rest ih =>
    cases rest with
    | nil =>
      rw [joinNl] at hc
      exact Or.inr ⟨ch, by simp, hc⟩
    | cons ch2 rest2 =>
      rw [joinNl] at hc
      case x_1 => simp
      rcases List.mem_append.1 hc with h | h
      · exact Or.inr ⟨ch, by simp, h⟩
      · rcases List.mem_cons.1 h with h | h
        · exact Or.inl h
        · rcases ih h with h1 | ⟨ch3, hch3, hcch3⟩
          · exact Or.inl h1
          · exact Or.inr ⟨ch3, List.mem_cons_of_mem _ hch3, hcch3⟩

/-- Helper: carriage-return-free strings are fixed points of the CR LF
collapse. -/
theorem normNewlines_no_cr : ∀ (s : List Char), (∀ c ∈ s, ¬ c = '\r') → normNewlines s = s := by
  intro s
  induction s using normNewlines.induct with
  | case1 => intro _; rfl
  | case2 c => intro _; rfl
  | case3 c d rest hcd ih =>
    intro h
    exfalso
    have := h c (by simp)
    simp at hcd
    exact this hcd.1
  | case4 c d rest hcd ih =>
    intro h
    rw [normNewlines, if_neg hcd, ih (fun x hx => h x (List.mem_cons_of_mem _ hx))]

/-- Helper: the splitlines loop accumulates a boundary-free chunk. -/
theorem splitBreaks_append_no_break (chunk : List Char) : ∀ (s acc : List Char),
    (∀ c ∈ chunk, isLineBreak c = false) →
    splitBreaks (chunk ++ s) acc = splitBreaks s (chunk.reverse ++ acc) := by
  induction chunk with
  | nil => simp
  | cons a tl ih =>
    intro s acc h
    have ha : isLineBreak a = false := h a (by simp)
    rw [List.cons_append, splitBreaks, ha]
    simp only [Bool.false_eq_true, if_false]
    rw [ih s (a :: acc) (fun c hc => h c (List.mem_cons_of_mem _ hc))]
    simp [List.append_assoc]

/-- Helper: the splitlines loop inverts a newline join of nonempty
boundary-free chunks. -/
theorem splitBreaks_joinNl : ∀ (chunks : List (List Char)),
    (∀ ch ∈ chunks, ch ≠ [] ∧ ∀ c ∈ ch, isLineBreak c = false) →
    splitBreaks (joinNl chunks) [] = chunks := by
  intro chunks
  induction chunks with
  | nil => intro _; rfl
  | cons ch rest ih =>
    intro h
    have hch := h ch (by simp)
    cases rest with
    | nil =>
      have h2 := splitBreaks_append_no_break ch [] [] hch.2
      simp only [List.append_nil] at h2
      rw [joinNl, h2, splitBreaks]
      simp [hch.1]
    | cons ch2 rest2 =>
      have h2 := splitBreaks_append_no_break ch ('\n' :: joinNl (ch2 :: rest2)) [] hch.2
      simp only [List.append_nil] at h2
      rw [joinNl, h2, splitBreaks]
      case x_1 => simp
      have hnl : isLineBreak '\n' = true := by decide
      rw [hnl]
      simp only [if_true]
      rw [ih (fun x hx => h x (List.mem_cons_of_mem _ hx))]
      simp

/-- Helper: `pySplitlines` inverts `joinNl` on nonempty boundary-free
chunks. -/
theorem splitlines_joinNl (chunks : List (List Char))
    (h : ∀ ch ∈ chunks, ch ≠ [] ∧ ∀ c ∈ ch, isLineBreak c = false) :
    pySplitlines (joinNl chunks) = chunks := by
  have hnocr : ∀ c ∈ joinNl chunks, ¬ c = '\r' := by
    intro c hc
    rcases mem_joinNl chunks c hc with h1 | ⟨ch, hch, hcch⟩
    · subst h1; decide
    · have hb := (h ch hch).2 c hcch
      intro he
      subst he
      simp [isLineBreak, lineBreakChars] at hb
  rw [pySplitlines, normNewlines_no_cr _ hnocr]
  exact splitBreaks_joinNl chunks h

/-- Helper: the lines of a normalized text are exactly its surviving
nonempty stripped chunks. -/
theorem pySplitlines_normalizeText (t : List Char) :
    pySplitlines (normalizeText t) =
      ((((pySplitlines t).map pyStrip).map
        (fun l => (splitDoubleSpace l).map pyStrip)).flatten.filter (fun c => !c.isEmpty)) := by
  rw [normalizeText]
  apply splitlines_joinNl
  intro ch hch
  rw [List.mem_filter] at hch
  obtain ⟨hmem, hne⟩ := hch
  refine ⟨by simpa using hne, ?_⟩
  rw [List.mem_flatten] at hmem
  obtain ⟨group, hg, hchg⟩ := hmem
  rw [List.mem_map] at hg
  obtain ⟨line1, hline1, rfl⟩ := hg
  rw [List.mem_map] at hline1
  obtain ⟨line0, hline0, rfl⟩ := hline1
  rw [List.mem_map] at hchg
  obtain ⟨phrase, hph, rfl⟩ := hchg
  intro c hc
  have h1 : c ∈ phrase := mem_pyStrip _ _ hc
  have h2 : c ∈ pyStrip line0 := mem_splitDoubleSpace _ phrase hph c h1
  have h3 : c ∈ line0 := mem_pyStrip _ _ h2
  exact pySplitlines_no_break t line0 hline0 c h3

/-- C6: for every successful extraction, the returned text blob, split
on newline separators, contains no line that is empty or consists
solely of whitespace. -/
theorem extracted_text_has_no_blank_lines (status : Nat) (d : List Node)
    (hok : ¬ (400 ≤ status ∧ status < 600)) (l : List Char)
    (hl : l ∈ pySplitlines (scrape_website (.response status d))) :
    l.all isPySpace = false := by
  rw [show scrape_website (.response status d) =
      normalizeText (getTextList (stripNodes d)) from by simp [scrape_website, hok]] at hl
  rw [pySplitlines_normalizeText] at hl
  rw [List.mem_filter] at hl
  obtain ⟨hmem, hne⟩ := hl
  rw [List.mem_flatten] at hmem
  obtain ⟨group, hg, hlg⟩ := hmem
  rw [List.mem_map] at hg
  obtain ⟨line1, _, rfl⟩ := hg
  rw [List.mem_map] at hlg
  obtain ⟨phrase, _, rfl⟩ := hlg
  exact pyStrip_not_all_space phrase (by simpa using hne)

/-- Witness for C6 at a concrete page. -/
theorem extracted_text_has_no_blank_lines_witness :
    ("hi there".toList).all isPySpace = false :=
  extracted_text_has_no_blank_lines 200 [.text "hi there".toList] (by decide) _ (by decide)

/-- Helper: left strip is the identity when the head is not whitespace. -/
theorem pyLStrip_eq_self (s : List Char)
    (h : ∀ hd, s.head? = some hd → isPySpace hd = false) : pyLStrip s = s := by
  cases s with
  | nil => rfl
  | cons a l =>
    rw [pyLStrip, List.dropWhile_cons, if_neg]
    rw [h a rfl]
    simp

/-- Helper: strip is the identity when neither end is whitespace. -/
theorem pyStrip_eq_self (s : List Char)
    (h1 : ∀ hd, s.head? = some hd → isPySpace hd = false)
    (h2 : ∀ la, s.getLast? = some la → isPySpace la = false) : pyStrip s = s := by
  rw [pyStrip, pyLStrip_eq_self s h1]
  have h3 : ∀ hd, s.reverse.head? = some hd → isPySpace hd = false := by
    intro hd hh
    rw [List.head?_reverse] at hh
    exact h2 hd hh
  have h4 : s.reverse.dropWhile isPySpace = s.reverse := by
    have := pyLStrip_eq_self s.reverse h3
    rw [pyLStrip] at this
    exact this
  rw [h4, List.reverse_reverse]

/-- Helper: strip absorbs a leading whitespace character. -/
theorem pyStrip_cons_space (w : Char) (l : List Char) (h : isPySpace w = true) :
    pyStrip (w :: l) = pyStrip l := by
  rw [pyStrip, pyStrip, pyLStrip, pyLStrip, List.dropWhile_cons, if_pos h]

/-- Helper: strip absorbs a trailing whitespace character. -/
theorem pyStrip_append_space (w : Char) (l : List Char) (h : isPySpace w = true) :
    pyStrip (l ++ [w]) = pyStrip l := by
  rw [pyStrip, pyStrip]
  have h1 : pyLStrip (l ++ [w]) =
      if (pyLStrip l).isEmpty then [] else pyLStrip l ++ [w] := by
    simp only [pyLStrip]
    rw [List.dropWhile_append]
    by_cases he : (List.dropWhile isPySpace l).isEmpty
    · simp [he, List.dropWhile_cons, h]
    · simp [he]
  by_cases he : (pyLStrip l).isEmpty
  · rw [h1, if_pos he]
    rw [List.isEmpty_iff] at he
    rw [he]
  · rw [h1, if_neg he, List.reverse_append]
    simp [List.dropWhile_cons, h]

/-- Helper: a non-backtick head does not affect the fence-marker scan. -/
theorem hasTicks_cons_ne (a : Char) (l : List Char) (ha : ¬ a = btk) :
    hasTicks (a :: l) = hasTicks l := by
  cases l with
  | nil => rfl
  | cons b l2 =>
    cases l2 with
    | nil => rfl
    | cons c l3 =>
      rw [hasTicks]
      simp [ha]

/-- Helper: a non-backtick last character does not affect the
fence-marker scan. -/
theorem hasTicks_append_ne (x : Char) (hx : ¬ x = btk) :
    ∀ (l : List Char), hasTicks (l ++ [x]) = hasTicks l := by
  intro l
  induction l with
  | nil => simp [hasTicks]
  | cons a tl ih =>
    cases tl with
    | nil =>
      simp only [List.cons_append, List.nil_append]
      rw [show hasTicks [a] = false from rfl]
      cases ha : decide (a = btk) with
      | true => rw [hasTicks]; simp [hx]
      | false =>
        have ha2 : ¬ a = btk := of_decide_eq_false ha
        rw [hasTicks_cons_ne a [x] ha2]
        rfl
    | cons b tl2 =>
      cases tl2 with
      | nil =>
        simp only [List.cons_append, List.nil_append]
        rw [hasTicks]
        rw [show hasTicks [b, x] = false from rfl]
        rw [show hasTicks [a, b] = false from rfl]
        simp [hx]
      | cons c tl3 =>
        simp only [List.cons_append] at ih ⊢
        rw [hasTicks, hasTicks]
        rw [ih]

/-- Helper: splitting a string that starts with the fence marker emits
an empty first part. -/
theorem splitTicks_ticks_prefix (l : List Char) :
    splitTicks (btk :: btk :: btk :: l) = [] :: splitTicks l := by
  rw [splitTicks]
  simp

/-- Helper: splitting around a single interior fence marker, when the
left part is marker-free and does not end in a backtick. -/
theorem splitTicks_append_sep (x : Char) (l : List Char) (hx : ¬ x = btk) :
    ∀ (m : List Char), hasTicks (m ++ [x]) = false →
    splitTicks ((m ++ [x]) ++ btk :: btk :: btk :: l) = (m ++ [x]) :: splitTicks l := by
  intro m
  induction m with
  | nil =>
    intro _
    simp only [List.nil_append, List.cons_append]
    rw [splitTicks, if_neg (by simp [hx]), splitTicks_ticks_prefix]
  | cons a m2 ih =>
    intro hm
    cases m2 with
    | nil =>
      simp only [List.cons_append, List.nil_append] at hm ⊢
      rw [splitTicks, if_neg (by simp [hx])]
      have h0 : splitTicks (x :: btk :: btk :: btk :: l) = [x] :: splitTicks l := by
        have h1 := ih (show hasTicks ([] ++ [x]) = false from rfl)
        simpa using h1
      rw [h0]
    | cons b m3 =>
      cases m3 with
      | nil =>
        simp only [List.cons_append, List.nil_append] at hm ⊢
        rw [splitTicks, if_neg (by simp [hx])]
        have h0 : splitTicks (b :: x :: btk :: btk :: btk :: l) = [b, x] :: splitTicks l := by
          have h1 := ih (show hasTicks ([b] ++ [x]) = false from rfl)
          simpa using h1
        rw [h0]
      | cons c m4 =>
        simp only [List.cons_append, List.append_assoc] at hm ⊢
        rw [hasTicks] at hm
        rw [Bool.or_eq_false_iff] at hm
        obtain ⟨htriple, hrest⟩ := hm
        rw [splitTicks, if_neg (by simp only [htriple]; simp)]
        have h1 := ih (by simpa using hrest)
        simp only [List.cons_append, List.append_assoc] at h1
        rw [h1]

/-- Helper: an object serialization is brace-delimited. -/
theorem serialize_jobj_shape (fs : List (List Char × JVal)) :
    serialize (.jobj fs) = lbr :: serializeFields fs ++ [rbr] := by
  rw [serialize]

/-- Helper: an object serialization is already stripped. -/
theorem pyStrip_serialize_obj (fs : List (List Char × JVal)) :
    pyStrip (serialize (.jobj fs)) = serialize (.jobj fs) := by
  apply pyStrip_eq_self
  · intro hd h
    rw [serialize_jobj_shape] at h
    simp at h
    rw [← h]
    decide
  · intro la h
    rw [serialize_jobj_shape,
      show (lbr :: serializeFields fs ++ [rbr]) = (lbr :: serializeFields fs) ++ [rbr] from rfl,
      List.getLast?_concat] at h
    simp at h
    rw [← h]
    decide

/-- Helper: a string not starting with a backtick fails the fence test. -/
theorem pyStartsWith_ticks_cons_ne (a : Char) (l : List Char) (ha : ¬ a = btk) :
    pyStartsWith ticks (a :: l) = false := by
  unfold pyStartsWith
  rw [decide_eq_false_iff_not]
  intro h
  rw [show ticks.length = 3 from rfl,
    show ((a :: l).take 3) = a :: l.take 2 from rfl,
    show (ticks : List Char) = [btk, btk, btk] from rfl] at h
  exact ha (List.cons.inj h).1

/-- Helper: every string starts with its own prefix. -/
theorem startsWith_self_append (p r : List Char) : pyStartsWith p (p ++ r) = true := by
  unfold pyStartsWith
  rw [List.take_left]
  simp

/-- Helper: a fenced reply ends with a backtick. -/
theorem fenceWrap_getLast (s : List Char) : (fenceWrap s).getLast? = some btk := by
  have hfw : fenceWrap s = (ticks ++ jsonWord ++ '\n' :: s ++ ['\n']) ++ ticks := by
    simp [fenceWrap, List.append_assoc]
  rw [hfw, List.getLast?_append]
  rfl

/-- Helper: a fenced reply is already stripped. -/
theorem pyStrip_fenceWrap (s : List Char) : pyStrip (fenceWrap s) = fenceWrap s := by
  apply pyStrip_eq_self
  · intro hd h
    rw [show (fenceWrap s).head? = some btk from rfl] at h
    simp at h
    rw [← h]
    decide
  · intro la h
    rw [fenceWrap_getLast] at h
    simp at h
    rw [← h]
    decide

/-- Helper: a fenced reply starts with the fence marker. -/
theorem pyStartsWith_ticks_fenceWrap (s : List Char) :
    pyStartsWith ticks (fenceWrap s) = true := rfl

/-- Helper: the fence split of a fenced marker-free reply has exactly
three parts, the middle one carrying the language tag and payload. -/
theorem splitTicks_fenceWrap (s : List Char) (ht : hasTicks s = false) :
    splitTicks (fenceWrap s) = [[], jsonWord ++ '\n' :: s ++ ['\n'], []] := by
  have hm : hasTicks ((jsonWord ++ '\n' :: s) ++ ['\n']) = false := by
    rw [hasTicks_append_ne '\n' (by decide)]
    rw [show (jsonWord ++ '\n' :: s) = 'j' :: 's' :: 'o' :: 'n' :: '\n' :: s from rfl]
    rw [hasTicks_cons_ne _ _ (by decide), hasTicks_cons_ne _ _ (by decide),
        hasTicks_cons_ne _ _ (by decide), hasTicks_cons_ne _ _ (by decide),
        hasTicks_cons_ne _ _ (by decide)]
    exact ht
  have hfw : fenceWrap s = btk :: btk :: btk ::
      (((jsonWord ++ '\n' :: s) ++ ['\n']) ++ btk :: btk :: btk :: ([] : List Char)) := by
    simp [fenceWrap, ticks, List.append_assoc]
  rw [hfw, splitTicks_ticks_prefix]
  rw [splitTicks_append_sep '\n' [] (by decide) (jsonWord ++ '\n' :: s) hm]
  rfl

/-- Helper: normalization leaves an unwrapped object serialization
unchanged. -/
theorem cleanResponse_serialized_obj (fs : List (List Char × JVal)) :
    cleanResponse (serialize (.jobj fs)) = serialize (.jobj fs) := by
  have hsw : pyStartsWith ticks (serialize (.jobj fs)) = false := by
    rw [serialize_jobj_shape]
    exact pyStartsWith_ticks_cons_ne lbr _ (by decide)
  simp only [cleanResponse, pyStrip_serialize_obj, hsw, Bool.false_eq_true, if_false]

/-- Helper: normalization of a fenced marker-free object serialization
recovers the serialization. -/
theorem cleanResponse_fenceWrap_obj (fs : List (List Char × JVal))
    (ht : hasTicks (serialize (.jobj fs)) = false) :
    cleanResponse (fenceWrap (serialize (.jobj fs))) = serialize (.jobj fs) := by
  simp only [cleanResponse, pyStrip_fenceWrap, pyStartsWith_ticks_fenceWrap, if_true,
    splitTicks_fenceWrap _ ht]
  rw [show (([[], jsonWord ++ '\n' :: serialize (.jobj fs) ++ ['\n'], []] :
      List (List Char)).length) = 3 from rfl]
  simp only [show ((2 : Nat) ≤ 3) = True from by simp, if_true]
  rw [show (([[], jsonWord ++ '\n' :: serialize (.jobj fs) ++ ['\n'], []] :
      List (List Char)).getD 1 []) = jsonWord ++ '\n' :: serialize (.jobj fs) ++ ['\n'] from rfl]
  split
  · show pyStrip ('\n' :: (serialize (.jobj fs) ++ ['\n'])) = serialize (.jobj fs)
    rw [pyStrip_cons_space _ _ (by decide)]
    rw [pyStrip_append_space _ _ (by decide)]
    exact pyStrip_serialize_obj fs
  · next h =>
      exact absurd
        (startsWith_self_append jsonWord ('\n' :: serialize (.jobj fs) ++ ['\n']))
        (by simpa using h)

/-- C2 counterexample: for the reply object whose single string value is
three backticks, the fenced wrapping parses to nothing while the
unwrapped serialization parses back to the object, because the fence
split cuts inside the string value. -/
theorem fenced_reply_parse_differs :
    parseJson (cleanResponse (serialize tickObj)) = some tickObj ∧
    parseJson (cleanResponse (fenceWrap (serialize tickObj))) = none := ⟨rfl, rfl⟩

/-- C2 amended: for every JSON object whose serialization contains no
three-backtick fence marker, the reply wrapped in a fenced code block
labeled "json" is normalized and parsed to exactly the same result as
the unwrapped serialization. -/
theorem fenced_reply_parses_identically (fs : List (List Char × JVal))
    (ht : hasTicks (serialize (.jobj fs)) = false) :
    parseJson (cleanResponse (fenceWrap (serialize (.jobj fs)))) =
      parseJson (cleanResponse (serialize (.jobj fs))) := by
  rw [cleanResponse_fenceWrap_obj fs ht, cleanResponse_serialized_obj fs]

/-- Witness for C2 at the spec's example reply object. -/
theorem fenced_reply_parses_identically_witness :
    parseJson (cleanResponse (fenceWrap (serialize (.jobj exFields)))) =
      parseJson (cleanResponse (serialize (.jobj exFields))) :=
  fenced_reply_parses_identically exFields (by decide)
